import Mathlib

/-!
Verification development for the diarkis replicated filesystem.

Strings from the C++ source (std::string, std::vector<uint8_t>) are modelled
as lists of natural numbers (byte values); machine integers are naturals with
explicit reduction modulo 2^32 where the source casts to uint32_t.
-/

namespace Diarkis

/-- Byte value of the path separator "/". -/
def slashB : Nat := 47

/-- Byte value of ".". -/
def dotB : Nat := 46

/-- Splitting of a byte string on "/" as performed by the C++ loop
`while (std::getline(iss, component, '/'))` in is_safe_path
(src/src/storage.cc): an empty input yields no components, and a single
trailing separator does not yield a trailing empty component. -/
def gsplit : List Nat → List (List Nat)
  | [] => []
  | c :: rest =>
    if c = slashB then [] :: gsplit rest
    else
      match gsplit rest with
      | [] => [[c]]
      | h :: t => (c :: h) :: t

/-- The nonempty components of a byte string: maximal runs of non-separator
bytes.  This is the view of a path that the operating system resolves
(empty components between adjacent separators are ignored by path
resolution). -/
def comps (s : List Nat) : List (List Nat) :=
  (gsplit s).filter (fun c => ¬ c = [])

/-- Loop body state machine of normalize_path (src/src/storage.cc,
lines 320-342): copies bytes, dropping a separator when the previous byte
was a separator or nothing has been emitted yet. -/
def normGo : List Nat → List Nat → Bool → List Nat
  | [], acc, _ => acc
  | c :: rest, acc, lastSlash =>
    if c = slashB then
      if ¬ lastSlash ∧ ¬ acc = [] then normGo rest (acc ++ [slashB]) true
      else normGo rest acc true
    else normGo rest (acc ++ [c]) false

/-- Final step of normalize_path: remove a trailing separator. -/
def dropTrailingSlash (s : List Nat) : List Nat :=
  if s.getLast? = some slashB then s.dropLast else s

/-- normalize_path from src/src/storage.cc: collapse runs of separators,
drop leading and trailing separators. -/
def normalize_path (p : List Nat) : List Nat :=
  dropTrailingSlash (normGo p [] false)

/-- is_safe_path from src/src/storage.cc lines 290-318: reject a leading
separator; split on "/" skipping empty and "." components; reject any ".."
component; reject a NUL byte inside a kept component. -/
def is_safe_path (p : List Nat) : Bool :=
  if p.head? = some slashB then false
  else
    let cs := (gsplit p).filter (fun c => ¬ (c = [] ∨ c = [dotB]))
    if cs.any (fun c => c = [dotB, dotB]) then false
    else ¬ cs.any (fun c => c.contains 0)

/-- Storage::validate_path (src/src/storage.cc lines 483-494), as the
boolean "returned Ok": length at most 4096 bytes and is_safe_path. -/
def validate_path (p : List Nat) : Bool :=
  if p.length > 4096 then false
  else is_safe_path p

/-- Storage::resolve_path (src/src/storage.cc lines 470-481): normalize,
strip leading separators, and prepend the base directory. -/
def resolve_path (base p : List Nat) : List Nat :=
  let clean := (normalize_path p).dropWhile (fun c => c = slashB)
  if clean = [] then base else base ++ slashB :: clean

theorem gsplit_nil : gsplit [] = [] := rfl

theorem gsplit_cons_slash (s : List Nat) : gsplit (slashB :: s) = [] :: gsplit s := by
  simp [gsplit]

theorem gsplit_cons_of_ne (c : Nat) (s : List Nat) (hc : ¬ c = slashB) :
    gsplit (c :: s) = match gsplit s with | [] => [[c]] | h :: t => (c :: h) :: t := by
  rw [gsplit, if_neg hc]

theorem gsplit_ne_nil (s : List Nat) (h : ¬ s = []) : ¬ gsplit s = [] := by
  match s with
  | c :: rest =>
    by_cases hc : c = slashB
    · subst hc; simp [gsplit_cons_slash]
    · rw [gsplit_cons_of_ne c rest hc]
      cases gsplit rest <;> simp

theorem gsplit_append (u v : List Nat) (h : u.getLast? = some slashB) :
    gsplit (u ++ v) = gsplit u ++ gsplit v := by
  induction u with
  | nil => simp at h
  | cons c u2 ih =>
    by_cases hc : c = slashB
    · subst hc
      cases u2 with
      | nil => simp [gsplit_cons_slash, gsplit_nil]
      | cons d u3 =>
        have h2 : (d :: u3).getLast? = some slashB := by
          rwa [List.getLast?_cons_cons] at h
        rw [List.cons_append, gsplit_cons_slash, ih h2, gsplit_cons_slash,
          List.cons_append]
    · cases u2 with
      | nil => simp [List.getLast?] at h; exact absurd h hc
      | cons d u3 =>
        have h2 : (d :: u3).getLast? = some slashB := by
          rwa [List.getLast?_cons_cons] at h
        have hne := gsplit_ne_nil (d :: u3) (by simp)
        obtain ⟨h0, t0, heq⟩ : ∃ h0 t0, gsplit (d :: u3) = h0 :: t0 := by
          cases hgs : gsplit (d :: u3) with
          | nil => exact absurd hgs hne
          | cons a b => exact ⟨a, b, rfl⟩
        rw [List.cons_append, gsplit_cons_of_ne c _ hc, ih h2, heq,
          gsplit_cons_of_ne c _ hc, heq]
        simp

theorem gsplit_concat_slash (y : List Nat) :
    gsplit (y ++ [slashB]) =
      if y = [] then [[]]
      else if y.getLast? = some slashB then gsplit y ++ [[]] else gsplit y := by
  induction y with
  | nil => simp [gsplit_cons_slash, gsplit_nil]
  | cons c y2 ih =>
    by_cases hc : c = slashB
    · subst hc
      rw [List.cons_append, gsplit_cons_slash, ih, gsplit_cons_slash]
      cases y2 with
      | nil => simp [List.getLast?, gsplit_nil]
      | cons d y3 =>
        rw [List.getLast?_cons_cons]
        by_cases h2 : (d :: y3).getLast? = some slashB
        · simp [h2]
        · simp [h2]
    · rw [List.cons_append, gsplit_cons_of_ne c _ hc, ih]
      cases y2 with
      | nil =>
        rw [if_pos rfl, gsplit_cons_of_ne c [] hc, gsplit_nil]
        simp [List.getLast?, hc]
      | cons d y3 =>
        have hne := gsplit_ne_nil (d :: y3) (by simp)
        obtain ⟨h0, t0, heq⟩ : ∃ h0 t0, gsplit (d :: y3) = h0 :: t0 := by
          cases hgs : gsplit (d :: y3) with
          | nil => exact absurd hgs hne
          | cons a b => exact ⟨a, b, rfl⟩
        rw [gsplit_cons_of_ne c _ hc, heq]
        by_cases h2 : (d :: y3).getLast? = some slashB
        · simp [h2, heq, List.getLast?_cons_cons]
        · simp [h2, heq, List.getLast?_cons_cons]

theorem comps_nil : comps [] = [] := rfl

theorem comps_slash_cons (s : List Nat) : comps (slashB :: s) = comps s := by
  unfold comps
  rw [gsplit_cons_slash]
  simp

theorem comps_append (u v : List Nat) (h : u = [] ∨ u.getLast? = some slashB) :
    comps (u ++ v) = comps u ++ comps v := by
  rcases h with rfl | h
  · simp [comps_nil]
  · unfold comps
    rw [gsplit_append u v h, List.filter_append]

theorem comps_concat_slash (y : List Nat) : comps (y ++ [slashB]) = comps y := by
  unfold comps
  rw [gsplit_concat_slash]
  by_cases h0 : y = []
  · subst h0; decide
  · rw [if_neg h0]
    by_cases h1 : y.getLast? = some slashB
    · rw [if_pos h1, List.filter_append]; simp
    · rw [if_neg h1]

theorem comps_dropTrailingSlash (s : List Nat) :
    comps (dropTrailingSlash s) = comps s := by
  unfold dropTrailingSlash
  by_cases h : s.getLast? = some slashB
  · rw [if_pos h]
    rcases List.eq_nil_or_concat s with rfl | ⟨y, a, rfl⟩
    · simp at h
    · simp only [List.concat_eq_append] at h ⊢
      rw [List.getLast?_concat] at h
      injection h with ha
      subst ha
      rw [List.dropLast_concat, comps_concat_slash]
  · rw [if_neg h]

theorem comps_dropWhile_slash (s : List Nat) :
    comps (s.dropWhile (fun c => c = slashB)) = comps s := by
  induction s with
  | nil => rfl
  | cons c r ih =>
    rw [List.dropWhile_cons]
    split
    · next hcond =>
        have hc : c = slashB := by simpa using hcond
        subst hc
        rw [ih, comps_slash_cons]
    · rfl

theorem normGo_comps (p : List Nat) : ∀ acc : List Nat,
    ((acc = [] ∨ acc.getLast? = some slashB) →
      comps (normGo p acc true) = comps acc ++ comps p)
    ∧ ((acc = [] ∨ ∃ b, ¬ b = slashB ∧ acc.getLast? = some b) →
      comps (normGo p acc false) = comps (acc ++ p)) := by
  induction p with
  | nil =>
    intro acc
    refine ⟨fun _ => ?_, fun _ => ?_⟩
    · simp [normGo, comps_nil]
    · simp [normGo]
  | cons c rest ih =>
    intro acc
    constructor
    · intro hacc
      by_cases hc : c = slashB
      · subst hc
        have hgo : normGo (slashB :: rest) acc true = normGo rest acc true := by
          simp [normGo]
        rw [hgo, (ih acc).1 hacc, comps_slash_cons]
      · have hgo : normGo (c :: rest) acc true = normGo rest (acc ++ [c]) false := by
          simp [normGo, hc]
        rw [hgo, (ih (acc ++ [c])).2 (Or.inr ⟨c, hc, List.getLast?_concat _⟩),
          List.append_assoc]
        exact comps_append acc (c :: rest) hacc
    · intro hacc
      by_cases hc : c = slashB
      · subst hc
        rcases hacc with h0 | ⟨b, hb, hlast⟩
        · subst h0
          have hgo : normGo (slashB :: rest) [] false = normGo rest [] true := by
            simp [normGo]
          rw [hgo, (ih []).1 (Or.inl rfl)]
          simp [comps_nil, comps_slash_cons]
        · have hne : ¬ acc = [] := by
            intro h0; subst h0; simp at hlast
          have hgo : normGo (slashB :: rest) acc false =
              normGo rest (acc ++ [slashB]) true := by
            simp [normGo, hne]
          rw [hgo, (ih (acc ++ [slashB])).1 (Or.inr (List.getLast?_concat _)),
            show acc ++ slashB :: rest = (acc ++ [slashB]) ++ rest by simp,
            comps_append (acc ++ [slashB]) rest (Or.inr (List.getLast?_concat _))]
      · have hgo : normGo (c :: rest) acc false = normGo rest (acc ++ [c]) false := by
          simp [normGo, hc]
        rw [hgo, (ih (acc ++ [c])).2 (Or.inr ⟨c, hc, List.getLast?_concat _⟩),
          List.append_assoc]
        rfl

theorem comps_normalize (p : List Nat) : comps (normalize_path p) = comps p := by
  unfold normalize_path
  rw [comps_dropTrailingSlash, (normGo_comps p []).2 (Or.inl rfl)]
  simp

theorem safe_no_dotdot (p : List Nat) (h : is_safe_path p = true) :
    ∀ c ∈ gsplit p, ¬ c = [dotB, dotB] := by
  intro c hc hcd
  subst hcd
  unfold is_safe_path at h
  by_cases h1 : p.head? = some slashB
  · rw [if_pos h1] at h; exact Bool.false_ne_true h
  · rw [if_neg h1] at h
    have hmem : [dotB, dotB] ∈ (gsplit p).filter (fun c => ¬ (c = [] ∨ c = [dotB])) := by
      refine List.mem_filter.2 ⟨hc, ?_⟩
      decide
    have hany : ((gsplit p).filter (fun c => ¬ (c = [] ∨ c = [dotB]))).any
        (fun c => c = [dotB, dotB]) = true := by
      refine List.any_eq_true.2 ⟨_, hmem, ?_⟩
      decide
    rw [if_pos hany] at h
    exact Bool.false_ne_true h

theorem mem_comps_of_mem_gsplit_ne (s : List Nat) (c : List Nat)
    (hc : c ∈ gsplit s) (hne : ¬ c = []) : c ∈ comps s := by
  unfold comps
  exact List.mem_filter.2 ⟨hc, by simpa using hne⟩

theorem mem_gsplit_of_mem_comps (s : List Nat) (c : List Nat)
    (hc : c ∈ comps s) : c ∈ gsplit s :=
  (List.mem_filter.1 hc).1

theorem validate_ok_is_safe (p : List Nat) (h : validate_path p = true) :
    is_safe_path p = true := by
  unfold validate_path at h
  by_cases hl : p.length > 4096
  · rw [if_pos hl] at h; exact absurd h Bool.false_ne_true
  · rwa [if_neg hl] at h

/-- C1: for every path p accepted by the path guard (validate_path returns
Ok), the resolved absolute path is contained under the base directory: it
equals the base, or the base followed by "/" and a suffix none of whose
"/"-separated components is "..", so no store operation escapes the base. -/
theorem C1_resolve_path_contained (base p : List Nat) (h : validate_path p = true) :
    resolve_path base p = base ∨
    ∃ s, resolve_path base p = base ++ slashB :: s ∧
      ∀ c ∈ gsplit s, ¬ c = [dotB, dotB] := by
  have hsafe := validate_ok_is_safe p h
  simp only [resolve_path]
  by_cases h0 : (normalize_path p).dropWhile (fun c => c = slashB) = []
  · left; rw [if_pos h0]
  · right
    refine ⟨(normalize_path p).dropWhile (fun c => c = slashB), by rw [if_neg h0], ?_⟩
    intro c hc hdd
    subst hdd
    have hmem : [dotB, dotB] ∈ comps ((normalize_path p).dropWhile (fun c => c = slashB)) :=
      mem_comps_of_mem_gsplit_ne _ _ hc (by decide)
    rw [comps_dropWhile_slash, comps_normalize] at hmem
    exact safe_no_dotdot p hsafe _ (mem_gsplit_of_mem_comps _ _ hmem) rfl

/-- Witness for C1 at a concrete accepted path. -/
theorem C1_witness : validate_path [97] = true ∧
    (resolve_path [98] [97] = [98] ∨
      ∃ s, resolve_path [98] [97] = [98] ++ slashB :: s ∧
        ∀ c ∈ gsplit s, ¬ c = [dotB, dotB]) :=
  ⟨by decide, C1_resolve_path_contained [98] [97] (by decide)⟩

example : gsplit [97, 47, 98] = [[97], [98]] := by decide
example : gsplit [97, 47] = [[97]] := by decide
example : gsplit [47, 97] = [[], [97]] := by decide
example : gsplit [] = [] := by decide
example : normalize_path [47, 47, 97, 47, 47, 98, 47] = [97, 47, 98] := by decide
example : is_safe_path [97, 47, 46, 46] = false := by decide
example : is_safe_path [97, 47, 46, 47, 98] = true := by decide
example : resolve_path [98] [47, 97, 47] = [98, 47, 97] := by decide

/-! ## Filesystem model

The on-disk subtree rooted at the configured base directory, and the POSIX
syscalls the store issues against it.  A node is a regular file with its
byte contents or a directory with a list of named entries.  Syscalls take
the path as the list of its nonempty "/"-separated components relative to
the base (the view the operating system resolves); "." components are
resolved in place.  ".." components never reach the syscalls through the
store, because the path guard rejects them; the model treats a ".." entry
name as an ordinary (never present) name.  Removing or renaming the base
directory itself is outside the model and reported as busy. -/

/-- Linux errno values used by the store. -/
def ENOENT : Nat := 2

/-- errno: I/O error. -/
def EIO : Nat := 5

/-- errno: device or resource busy. -/
def EBUSY : Nat := 16

/-- errno: file exists. -/
def EEXIST : Nat := 17

/-- errno: not a directory. -/
def ENOTDIR : Nat := 20

/-- errno: is a directory. -/
def EISDIR : Nat := 21

/-- errno: invalid argument. -/
def EINVAL : Nat := 22

/-- errno: directory not empty. -/
def ENOTEMPTY : Nat := 39

/-- A node of the on-disk tree: a regular file with its contents, or a
directory with named entries. -/
inductive Node where
  | file (data : List Nat)
  | dir (es : List (List Nat × Node))

/-- Look up a directory entry by name (first match). -/
def lookupE (es : List (List Nat × Node)) (n : List Nat) : Option Node :=
  match es with
  | [] => none
  | e :: tl => if e.1 = n then some e.2 else lookupE tl n

/-- Replace the first entry named n by the given node. -/
def replaceE (es : List (List Nat × Node)) (n : List Nat) (v : Node) :
    List (List Nat × Node) :=
  match es with
  | [] => []
  | e :: tl => if e.1 = n then (n, v) :: tl else e :: replaceE tl n v

/-- Add a new entry. -/
def insertE (es : List (List Nat × Node)) (n : List Nat) (v : Node) :
    List (List Nat × Node) :=
  es ++ [(n, v)]

/-- Remove the entries named n. -/
def eraseE (es : List (List Nat × Node)) (n : List Nat) : List (List Nat × Node) :=
  es.filter (fun e => ¬ e.1 = n)

/-- Result of resolving a path against the tree, as stat(2) would: the node
it denotes, or ENOENT (some component missing), or ENOTDIR (a non-final
component, or a component followed by ".", names a regular file). -/
inductive WalkRes where
  | found (n : Node)
  | enoent
  | enotdir

/-- Resolve a component list against a node. -/
def resolveNode : Node → List (List Nat) → WalkRes
  | t, [] => .found t
  | .file _, _ :: _ => .enotdir
  | .dir es, c :: rest =>
    if c = [dotB] then resolveNode (.dir es) rest
    else
      match lookupE es c with
      | none => .enoent
      | some t2 => resolveNode t2 rest

/-- open(path, O_CREAT | O_EXCL | O_WRONLY, 0644) followed by close, as used
by create_file: creates an empty file; an existing final entry of any kind
is EEXIST; a missing intermediate component is ENOENT; traversal through a
regular file is ENOTDIR. -/
def openExcl : Node → List (List Nat) → Nat × Node
  | t, [] => (EEXIST, t)
  | .file d, _ :: _ => (ENOTDIR, .file d)
  | .dir es, c :: rest =>
    if c = [dotB] then openExcl (.dir es) rest
    else
      match lookupE es c with
      | some t2 =>
        if rest = [] then (EEXIST, .dir es)
        else
          let r := openExcl t2 rest
          (r.1, .dir (replaceE es c r.2))
      | none =>
        if rest = [] then (0, .dir (insertE es c (.file [])))
        else (ENOENT, .dir es)

/-- mkdir(path, 0755). -/
def mkdirOp : Node → List (List Nat) → Nat × Node
  | t, [] => (EEXIST, t)
  | .file d, _ :: _ => (ENOTDIR, .file d)
  | .dir es, c :: rest =>
    if c = [dotB] then mkdirOp (.dir es) rest
    else
      match lookupE es c with
      | some t2 =>
        if rest = [] then (EEXIST, .dir es)
        else
          let r := mkdirOp t2 rest
          (r.1, .dir (replaceE es c r.2))
      | none =>
        if rest = [] then (0, .dir (insertE es c (.dir [])))
        else (ENOENT, .dir es)

/-- open(path, O_WRONLY | O_CREAT | O_TRUNC, 0644), write all bytes, fsync,
close, as used by write_file: the final file holds exactly the given bytes. -/
def writeOp (bytes : List Nat) : Node → List (List Nat) → Nat × Node
  | t, [] => (EISDIR, t)
  | .file d, _ :: _ => (ENOTDIR, .file d)
  | .dir es, c :: rest =>
    if c = [dotB] then writeOp bytes (.dir es) rest
    else
      match lookupE es c with
      | some t2 =>
        if rest = [] then
          match t2 with
          | .file _ => (0, .dir (replaceE es c (.file bytes)))
          | .dir _ => (EISDIR, .dir es)
        else
          let r := writeOp bytes t2 rest
          (r.1, .dir (replaceE es c r.2))
      | none =>
        if rest = [] then (0, .dir (insertE es c (.file bytes)))
        else (ENOENT, .dir es)

/-- open(path, O_WRONLY | O_APPEND | O_CREAT, 0644), write all bytes, fsync,
close, as used by append_file. -/
def appendOp (bytes : List Nat) : Node → List (List Nat) → Nat × Node
  | t, [] => (EISDIR, t)
  | .file d, _ :: _ => (ENOTDIR, .file d)
  | .dir es, c :: rest =>
    if c = [dotB] then appendOp bytes (.dir es) rest
    else
      match lookupE es c with
      | some t2 =>
        if rest = [] then
          match t2 with
          | .file d => (0, .dir (replaceE es c (.file (d ++ bytes))))
          | .dir _ => (EISDIR, .dir es)
        else
          let r := appendOp bytes t2 rest
          (r.1, .dir (replaceE es c r.2))
      | none =>
        if rest = [] then (0, .dir (insertE es c (.file bytes)))
        else (ENOENT, .dir es)

/-- unlink(path). -/
def unlinkOp : Node → List (List Nat) → Nat × Node
  | t, [] => (EISDIR, t)
  | .file d, _ :: _ => (ENOTDIR, .file d)
  | .dir es, c :: rest =>
    if c = [dotB] then unlinkOp (.dir es) rest
    else
      match lookupE es c with
      | none => (ENOENT, .dir es)
      | some t2 =>
        if rest = [] then
          match t2 with
          | .dir _ => (EISDIR, .dir es)
          | .file _ => (0, .dir (eraseE es c))
        else
          let r := unlinkOp t2 rest
          (r.1, .dir (replaceE es c r.2))

/-- rmdir(path).  A final "." component is EINVAL; rmdir of the base
directory itself is outside the model (reported busy). -/
def rmdirOp : Node → List (List Nat) → Nat × Node
  | t, [] => (EBUSY, t)
  | .file d, _ :: _ => (ENOTDIR, .file d)
  | .dir es, c :: rest =>
    if c = [dotB] then
      if rest = [] then (EINVAL, .dir es)
      else rmdirOp (.dir es) rest
    else
      match lookupE es c with
      | none => (ENOENT, .dir es)
      | some t2 =>
        if rest = [] then
          match t2 with
          | .file _ => (ENOTDIR, .dir es)
          | .dir [] => (0, .dir (eraseE es c))
          | .dir (_ :: _) => (ENOTEMPTY, .dir es)
        else
          let r := rmdirOp t2 rest
          (r.1, .dir (replaceE es c r.2))

/-- open(path, O_RDONLY), fstat, read of the whole file: returns the errno
and the bytes read.  Reading from a directory descriptor fails EISDIR. -/
def readFileOp (t : Node) (cs : List (List Nat)) : Nat × List Nat :=
  match resolveNode t cs with
  | .enoent => (ENOENT, [])
  | .enotdir => (ENOTDIR, [])
  | .found (.file d) => (0, d)
  | .found (.dir _) => (EISDIR, [])

/-- opendir(path) and readdir of every entry (the "." and ".." entries a
real directory stream reports are skipped by the store loop and are not
part of the model).  opendir on a regular file is ENOTDIR. -/
def listDirOp (t : Node) (cs : List (List Nat)) : Nat × List (List Nat) :=
  match resolveNode t cs with
  | .enoent => (ENOENT, [])
  | .enotdir => (ENOTDIR, [])
  | .found (.file _) => (ENOTDIR, [])
  | .found (.dir es) => (0, es.map (fun e => e.1))

/-- Remove the entry a component list denotes, whatever its kind (second
half of rename). -/
def detachAt : Node → List (List Nat) → Nat × Node
  | t, [] => (EBUSY, t)
  | .file d, _ :: _ => (ENOTDIR, .file d)
  | .dir es, c :: rest =>
    if c = [dotB] then
      if rest = [] then (EINVAL, .dir es)
      else detachAt (.dir es) rest
    else
      match lookupE es c with
      | none => (ENOENT, .dir es)
      | some t2 =>
        if rest = [] then (0, .dir (eraseE es c))
        else
          let r := detachAt t2 rest
          (r.1, .dir (replaceE es c r.2))

/-- Place a node at a component list with the destination semantics of
rename(2): a missing destination is created; an existing file destination
is replaced by a file; a directory destination must be an empty directory
and the source a directory. -/
def attachAt (moved : Node) : Node → List (List Nat) → Nat × Node
  | t, [] => (EBUSY, t)
  | .file d, _ :: _ => (ENOTDIR, .file d)
  | .dir es, c :: rest =>
    if c = [dotB] then
      if rest = [] then (EINVAL, .dir es)
      else attachAt moved (.dir es) rest
    else
      match lookupE es c with
      | none =>
        if rest = [] then (0, .dir (insertE es c moved))
        else (ENOENT, .dir es)
      | some t2 =>
        if rest = [] then
          match moved, t2 with
          | .file _, .file _ => (0, .dir (replaceE es c moved))
          | .file _, .dir _ => (EISDIR, .dir es)
          | .dir _, .file _ => (ENOTDIR, .dir es)
          | .dir _, .dir [] => (0, .dir (replaceE es c moved))
          | .dir _, .dir (_ :: _) => (ENOTEMPTY, .dir es)
        else
          let r := attachAt moved t2 rest
          (r.1, .dir (replaceE es c r.2))

/-- Path components with "." resolved away, for the identity and
containment checks of rename. -/
def dropDots (cs : List (List Nat)) : List (List Nat) :=
  cs.filter (fun c => ¬ c = [dotB])

/-- rename(oldpath, newpath): renaming a path to itself succeeds without
effect; moving a directory into itself is EINVAL; otherwise the source is
resolved, attached at the destination and detached from its origin. -/
def renameOp (t : Node) (oldCs newCs : List (List Nat)) : Nat × Node :=
  if dropDots oldCs = dropDots newCs then
    match resolveNode t oldCs with
    | .found _ => (0, t)
    | .enoent => (ENOENT, t)
    | .enotdir => (ENOTDIR, t)
  else if (dropDots oldCs).isPrefixOf (dropDots newCs) then (EINVAL, t)
  else
    match resolveNode t oldCs with
    | .enoent => (ENOENT, t)
    | .enotdir => (ENOTDIR, t)
    | .found moved =>
      let ra := attachAt moved t newCs
      if ¬ ra.1 = 0 then (ra.1, t)
      else
        let rd := detachAt ra.2 oldCs
        if ¬ rd.1 = 0 then (rd.1, t) else (0, rd.2)

/-! ## Error taxonomy and errno mapping -/

/-- ErrorCode from src/src/include/diarkis/error.h. -/
inductive ErrorCode where
  | Success
  | NotLeader
  | NoLeaderAvailable
  | FileNotFound
  | DirectoryNotFound
  | InvalidPath
  | AlreadyExists
  | NotDirectory
  | IoError
  | SerializationError
  | InvalidCommand
  | NetworkError
  | Timeout
  | Unknown
deriving DecidableEq

/-- Error::from_errno (src/src/fs.cpp lines 254-262), as the ErrorCode it
selects; the message it attaches, strerror(err), is not modelled. -/
def Error.from_errno (err : Nat) : ErrorCode :=
  if err = 0 then .Success
  else if err = ENOENT then .FileNotFound
  else if err = EEXIST then .AlreadyExists
  else if err = ENOTDIR then .NotDirectory
  else .IoError

/-- FSStatus from src/include/diarkis/state_machine.h lines 115-126. -/
inductive FSStatus where
  | OK
  | NOT_FOUND
  | ALREADY_EXISTS
  | NOT_LEADER
  | NO_LEADER
  | IO_ERROR
  | INVALID_PATH
  | NOT_DIRECTORY
  | DIRECTORY_NOT_EMPTY
  | RAFT_ERROR
deriving DecidableEq

/-- RaftFilesystemService::errno_to_status (src/src/tcp.cc lines 830-840). -/
def errno_to_status (err : Nat) : FSStatus :=
  if err = 0 then .OK
  else if err = ENOENT then .NOT_FOUND
  else if err = EEXIST then .ALREADY_EXISTS
  else if err = ENOTDIR then .NOT_DIRECTORY
  else if err = ENOTEMPTY then .DIRECTORY_NOT_EMPTY
  else if err = EINVAL then .INVALID_PATH
  else .IO_ERROR

/-! ## Storage (the Result-carrying store of src/src/storage.cc)

Each operation validates its path, optionally takes the per-path lock
through a scoped guard, issues the syscall against the resolved path and
maps a failing errno through Error::from_errno.  The lock acquisitions an
operation performs are recorded in an event trace: the scoped guards of the
source acquire on construction and release on destruction, so an operation
that takes the write lock contributes the events wlock then wunlock. -/

/-- Per-path lock events of the scoped ReadLock and WriteLock guards
(src/src/storage.cc lines 425-441). -/
inductive LockEv where
  | rlock (p : List Nat)
  | runlock (p : List Nat)
  | wlock (p : List Nat)
  | wunlock (p : List Nat)
deriving DecidableEq

/-- Outcome of a void store operation: result, updated tree, lock trace. -/
structure VOut where
  res : Option ErrorCode
  fs : Node
  trace : List LockEv

/-- The component list of resolve_path(base, p) relative to the base: the
nonempty components of the cleaned suffix that resolve_path appends. -/
def osComps (p : List Nat) : List (List Nat) :=
  comps ((normalize_path p).dropWhile (fun c => c = slashB))

theorem osComps_eq (p : List Nat) : osComps p = comps p := by
  unfold osComps
  rw [comps_dropWhile_slash, comps_normalize]

/-- Storage::create_file (src/src/storage.cc lines 496-518): validate, take
the write lock, open O_CREAT | O_EXCL; EEXIST counts as success. -/
def Storage.create_file (fs : Node) (p : List Nat) : VOut :=
  if validate_path p then
    let r := openExcl fs (osComps p)
    ⟨if r.1 = 0 ∨ r.1 = EEXIST then none else some (Error.from_errno r.1), r.2,
      [.wlock p, .wunlock p]⟩
  else ⟨some .InvalidPath, fs, []⟩

/-- Storage::create_directory (src/src/storage.cc lines 520-540): validate,
mkdir with EEXIST as success; no lock is taken. -/
def Storage.create_directory (fs : Node) (p : List Nat) : VOut :=
  if validate_path p then
    let r := mkdirOp fs (osComps p)
    ⟨if r.1 = 0 ∨ r.1 = EEXIST then none else some (Error.from_errno r.1), r.2, []⟩
  else ⟨some .InvalidPath, fs, []⟩

/-- Storage::write_file (src/src/storage.cc lines 591-628): validate, write
lock, open O_WRONLY | O_CREAT | O_TRUNC, write all, fsync. -/
def Storage.write_file (fs : Node) (p bytes : List Nat) : VOut :=
  if validate_path p then
    let r := writeOp bytes fs (osComps p)
    ⟨if r.1 = 0 then none else some (Error.from_errno r.1), r.2,
      [.wlock p, .wunlock p]⟩
  else ⟨some .InvalidPath, fs, []⟩

/-- Storage::append_file (src/src/storage.cc lines 630-667). -/
def Storage.append_file (fs : Node) (p bytes : List Nat) : VOut :=
  if validate_path p then
    let r := appendOp bytes fs (osComps p)
    ⟨if r.1 = 0 then none else some (Error.from_errno r.1), r.2,
      [.wlock p, .wunlock p]⟩
  else ⟨some .InvalidPath, fs, []⟩

/-- Storage::delete_file (src/src/storage.cc lines 696-718): validate,
write lock, unlink with ENOENT as success. -/
def Storage.delete_file (fs : Node) (p : List Nat) : VOut :=
  if validate_path p then
    let r := unlinkOp fs (osComps p)
    ⟨if r.1 = 0 ∨ r.1 = ENOENT then none else some (Error.from_errno r.1), r.2,
      [.wlock p, .wunlock p]⟩
  else ⟨some .InvalidPath, fs, []⟩

/-- Storage::delete_directory (src/src/storage.cc lines 720-740): validate,
rmdir with ENOENT as success; no lock is taken. -/
def Storage.delete_directory (fs : Node) (p : List Nat) : VOut :=
  if validate_path p then
    let r := rmdirOp fs (osComps p)
    ⟨if r.1 = 0 ∨ r.1 = ENOENT then none else some (Error.from_errno r.1), r.2, []⟩
  else ⟨some .InvalidPath, fs, []⟩

/-- Storage::rename (src/src/storage.cc lines 669-694): validate both
paths, write-lock the old then the new path, rename(2). -/
def Storage.rename (fs : Node) (oldP newP : List Nat) : VOut :=
  if validate_path oldP then
    if validate_path newP then
      let r := renameOp fs (osComps oldP) (osComps newP)
      ⟨if r.1 = 0 then none else some (Error.from_errno r.1), r.2,
        [.wlock oldP, .wlock newP, .wunlock newP, .wunlock oldP]⟩
    else ⟨some .InvalidPath, fs, []⟩
  else ⟨some .InvalidPath, fs, []⟩

/-- Outcome of a value-returning store operation (no tree change). -/
structure ROut where
  res : Except ErrorCode (List Nat)
  trace : List LockEv

/-- Storage::read_file (src/src/storage.cc lines 542-589): validate, read
lock, open O_RDONLY, refuse files above 100 MiB, read everything. -/
def Storage.read_file (fs : Node) (p : List Nat) : ROut :=
  if validate_path p then
    let r := readFileOp fs (osComps p)
    if r.1 = 0 then
      ⟨if r.2.length > 104857600 then .error .IoError else .ok r.2,
        [.rlock p, .runlock p]⟩
    else ⟨.error (Error.from_errno r.1), [.rlock p, .runlock p]⟩
  else ⟨.error .InvalidPath, []⟩

/-- Outcome of list_directory; the FileInfo each entry carries is reduced
to its name here. -/
structure LOut where
  res : Except ErrorCode (List (List Nat))
  trace : List LockEv

/-- Storage::list_directory (src/src/storage.cc lines 742-782): validate,
opendir and collect the entries; no lock is taken. -/
def Storage.list_directory (fs : Node) (p : List Nat) : LOut :=
  if validate_path p then
    let r := listDirOp fs (osComps p)
    ⟨if r.1 = 0 then .ok r.2 else .error (Error.from_errno r.1), []⟩
  else ⟨.error .InvalidPath, []⟩

/-! ## LocalStorageEngine (the errno-returning engine of
src/src/include/diarkis/tcp.h, the apply target of on_apply)

get_full_path strips one leading "/" and appends to the base without
validation or normalization; the component list the operating system then
resolves is the nonempty components of the remainder. -/

/-- The component list of LocalStorageEngine::get_full_path(p) relative to
the base. -/
def engineComps (p : List Nat) : List (List Nat) :=
  comps (if p.head? = some slashB then p.tail else p)

theorem engineComps_eq (p : List Nat) : engineComps p = comps p := by
  unfold engineComps
  by_cases h : p.head? = some slashB
  · rw [if_pos h]
    cases p with
    | nil => simp at h
    | cons c t =>
      simp only [List.head?_cons, Option.some.injEq] at h
      subst h
      rw [List.tail_cons, comps_slash_cons]
  · rw [if_neg h]

/-- LocalStorageEngine::do_create_file (tcp.h lines 281-296). -/
def do_create_file (fs : Node) (p : List Nat) : Nat × Node :=
  let r := openExcl fs (engineComps p)
  if r.1 = EEXIST then (0, r.2) else r

/-- LocalStorageEngine::do_write_file (tcp.h lines 298-324). -/
def do_write_file (fs : Node) (p bytes : List Nat) : Nat × Node :=
  writeOp bytes fs (engineComps p)

/-- LocalStorageEngine::do_append_file (tcp.h lines 326-352). -/
def do_append_file (fs : Node) (p bytes : List Nat) : Nat × Node :=
  appendOp bytes fs (engineComps p)

/-- LocalStorageEngine::do_delete_file (tcp.h lines 354-366). -/
def do_delete_file (fs : Node) (p : List Nat) : Nat × Node :=
  let r := unlinkOp fs (engineComps p)
  if r.1 = ENOENT then (0, r.2) else r

/-- LocalStorageEngine::do_create_directory (tcp.h lines 368-380). -/
def do_create_directory (fs : Node) (p : List Nat) : Nat × Node :=
  let r := mkdirOp fs (engineComps p)
  if r.1 = EEXIST then (0, r.2) else r

/-- LocalStorageEngine::do_delete_directory (tcp.h lines 382-394). -/
def do_delete_directory (fs : Node) (p : List Nat) : Nat × Node :=
  let r := rmdirOp fs (engineComps p)
  if r.1 = ENOENT then (0, r.2) else r

/-- LocalStorageEngine::do_rename (tcp.h lines 396-406). -/
def do_rename (fs : Node) (oldP newP : List Nat) : Nat × Node :=
  renameOp fs (engineComps oldP) (engineComps newP)

/-! ## Log codec (FSOperation, src/unnamed/part_002 lines 252-333) -/

/-- FSOperation from src/include/diarkis/fs_operations.h: a kind byte, a
path string and a byte payload (for RENAME the payload is the new path). -/
structure FSOperation where
  type : Nat
  path : List Nat
  data : List Nat
deriving DecidableEq

/-- Little-endian u32 encoding by the four push_back((n >> k) & 0xFF). -/
def enc32 (n : Nat) : List Nat :=
  [n % 256, n / 256 % 256, n / 65536 % 256, n / 16777216 % 256]

/-- Little-endian u32 decoding by the four shifted or-assignments. -/
def dec32 (a b c d : Nat) : Nat :=
  a % 256 + b % 256 * 256 + c % 256 * 65536 + d % 256 * 16777216

/-- FSOperation::serialize (src/unnamed/part_002 lines 252-281): kind byte,
path length as u32 little-endian (the cast static_cast<uint32_t> reduces
modulo 2^32), path bytes, payload length, payload bytes; an empty payload
contributes no bytes, exactly like appending a zero-length slice. -/
def FSOperation.serialize (op : FSOperation) : List Nat :=
  op.type :: enc32 (op.path.length % 4294967296) ++ op.path ++
    enc32 (op.data.length % 4294967296) ++ op.data

/-- FSOperation::deserialize (src/unnamed/part_002 lines 283-333): read the
kind byte and both length-prefixed fields, failing on a buffer shorter than
9 bytes, on lengths that overrun the buffer, and on bytes left over after
the payload; chars are converted to uint8 values modulo 256. -/
def FSOperation.deserialize (bytes : List Nat) : Option FSOperation :=
  match bytes with
  | t :: a :: b :: c :: d :: rest =>
    if 5 + rest.length < 9 then none
    else
      let plen := dec32 a b c d
      if 5 + plen > 5 + rest.length then none
      else if 5 + plen + 4 > 5 + rest.length then none
      else
        let r2 := rest.drop plen
        let dlen := dec32 (r2.getD 0 0) (r2.getD 1 0) (r2.getD 2 0) (r2.getD 3 0)
        if ¬ 5 + plen + 4 + dlen = 5 + rest.length then none
        else some ⟨t % 256, rest.take plen, (r2.drop 4).map (fun x => x % 256)⟩
  | _ => none

/-- LocalStorageEngine::apply_operation (tcp.h lines 151-190): dispatch on
the kind byte (CREATE_FILE = 1 through RENAME = 7); a RENAME without a
payload and any unknown kind fail EINVAL without touching the tree. -/
def apply_operation (fs : Node) (op : FSOperation) : Nat × Node :=
  if op.type = 1 then do_create_file fs op.path
  else if op.type = 2 then do_write_file fs op.path op.data
  else if op.type = 3 then do_append_file fs op.path op.data
  else if op.type = 4 then do_delete_file fs op.path
  else if op.type = 5 then do_create_directory fs op.path
  else if op.type = 6 then do_delete_directory fs op.path
  else if op.type = 7 then
    if op.data = [] then (EINVAL, fs) else do_rename fs op.path op.data
  else (EINVAL, fs)

/-- One iteration of RaftFilesystemService::on_apply (src/src/tcp.cc lines
931-958) for a committed entry: deserialize, on failure report RAFT_ERROR
to the waiting closure without touching the store, otherwise apply and
report errno_to_status of the result. -/
def on_apply_entry (fs : Node) (bytes : List Nat) : Node × FSStatus :=
  match FSOperation.deserialize bytes with
  | none => (fs, .RAFT_ERROR)
  | some op =>
    let r := apply_operation fs op
    (r.2, errno_to_status r.1)

/-! ## Submit path (leader gate) -/

/-- Message attached to the NOT_LEADER rejection of submit_operation. -/
def notLeaderMsgPrefix : List Nat :=
  ("Not leader, current leader is: ".data.map Char.toNat)

/-- Message attached to the NO_LEADER rejection of submit_operation. -/
def noLeaderElectedMsg : List Nat :=
  ("No leader elected".data.map Char.toNat)

/-- First step of RaftFilesystemService::submit_operation (src/src/tcp.cc
lines 842-874): either an early rejection, or the serialized operation
handed to the Raft library as a proposal. -/
inductive SubmitStep where
  | reject (s : FSStatus) (msg : List Nat)
  | propose (bytes : List Nat)
deriving DecidableEq

/-- RaftFilesystemService::submit_operation up to the hand-off to the Raft
library, as a function of the cached leader flag and the currently known
leader id (empty when unknown).  The blocking wait on the completion
closure after a successful hand-off is owned by the Raft library and is
not modelled. -/
def submit_operation (isLeader : Bool) (leader : List Nat) (op : FSOperation) :
    SubmitStep :=
  if isLeader then .propose op.serialize
  else if leader = [] then .reject .NO_LEADER noLeaderElectedMsg
  else .reject .NOT_LEADER (notLeaderMsgPrefix ++ leader)

/-- commands::Response from src/src/include/diarkis/commands.h. -/
structure Response where
  success : Bool
  error : List Nat
  data : List Nat
  entries : List (List Nat)
deriving DecidableEq

/-- Rejection message of StateMachine::apply_write_command when no leader
is known. -/
def noLeaderAvailableMsg : List Nat :=
  ("No leader available".data.map Char.toNat)

/-- Redirect message prefix of StateMachine::apply_write_command. -/
def redirectPrefix : List Nat :=
  ("Not leader, redirect to: ".data.map Char.toNat)

/-- First step of StateMachine::apply_write_command (src/src/state_machine.cc
lines 161-212): a rejection response, or the command goes on to be packed
and proposed. -/
inductive WriteGate where
  | rejected (resp : Response)
  | proposed
deriving DecidableEq

/-- The leader gate of StateMachine::apply_write_command as a function of
the cached leader flag and the known leader id. -/
def apply_write_command_gate (isLeader : Bool) (leader : List Nat) : WriteGate :=
  if isLeader then .proposed
  else if leader = [] then .rejected ⟨false, noLeaderAvailableMsg, [], []⟩
  else .rejected ⟨false, redirectPrefix ++ leader, [], []⟩

/-! ## RPC front door (src/src/rpc.cc)

The wire codec is the external msgpack library; decoding of a received
body is therefore a parameter of the model, as is the state machine the
decoded commands are dispatched to.  A connection is the list of bytes
received on the socket; the fuel argument bounds the request loop, which
the source leaves when the peer disconnects or the server stops. -/

/-- Maximum wire message size (100 MiB). -/
def MAX_MESSAGE : Nat := 104857600

/-- ntohl of the four bytes of the length prefix. -/
def ntohl (b0 b1 b2 b3 : Nat) : Nat :=
  b0 % 256 * 16777216 + b1 % 256 * 65536 + b2 % 256 * 256 + b3 % 256

/-- RpcServer::receive_message (src/src/rpc.cc lines 42-63): read the
4-byte network-order length, reject 0 and anything above 100 MiB, then
read exactly that many body bytes; returns the body and the remaining
stream. -/
def receive_message (stream : List Nat) : Option (List Nat × List Nat) :=
  match stream with
  | b0 :: b1 :: b2 :: b3 :: rest =>
    let len := ntohl b0 b1 b2 b3
    if len = 0 ∨ len > MAX_MESSAGE then none
    else if rest.length < len then none
    else some (rest.take len, rest.drop len)
  | _ => none

/-- commands::Command from src/src/include/diarkis/commands.h. -/
structure RpcCommand where
  type : Nat
  path : List Nat
  new_path : List Nat
  contents : List Nat
deriving DecidableEq

/-- Response the catch block of handle_connection sends on a decode
failure ("Processing error: " plus the exception text; the text is not
modelled). -/
def procErrorResp : Response :=
  ⟨false, ("Processing error".data.map Char.toNat), [], []⟩

/-- Response of the default branch for an unknown command type. -/
def unknownTypeResp : Response :=
  ⟨false, ("Unknown command type".data.map Char.toNat), [], []⟩

/-- Body of one iteration of RpcServer::handle_connection (src/src/rpc.cc
lines 94-150): decode the body, dispatch write kinds to the write path and
read kinds to the read path, answer unknown kinds and undecodable bodies
with a failure response.  Exactly one response per received message. -/
def handle_one (decode : List Nat → Option RpcCommand)
    (execW execR : RpcCommand → Response) (body : List Nat) : Response :=
  match decode body with
  | none => procErrorResp
  | some cmd =>
    if cmd.type = 3 ∨ cmd.type = 4 ∨ cmd.type = 1 ∨ cmd.type = 6 ∨ cmd.type = 5 ∨
        cmd.type = 8 ∨ cmd.type = 9 then execW cmd
    else if cmd.type = 2 then execR cmd
    else if cmd.type = 7 then execR cmd
    else unknownTypeResp

/-- RpcServer::handle_connection (src/src/rpc.cc lines 80-154): loop
receiving framed messages and answering each with one response; a receive
failure leaves the loop without sending anything. -/
def handle_connection (decode : List Nat → Option RpcCommand)
    (execW execR : RpcCommand → Response) : Nat → List Nat → List Response
  | 0, _ => []
  | fuel + 1, stream =>
    match receive_message stream with
    | none => []
    | some (body, rest) =>
      handle_one decode execW execR body ::
        handle_connection decode execW execR fuel rest

/-! ## Entry map lemmas -/

theorem replaceE_self (es : List (List Nat × Node)) (c : List Nat) (v : Node)
    (h : lookupE es c = some v) : replaceE es c v = es := by
  induction es with
  | nil => simp [lookupE] at h
  | cons e tl ih =>
    by_cases he : e.1 = c
    · rw [lookupE, if_pos he] at h
      injection h with hv
      rw [replaceE, if_pos he, ← he, ← hv]
    · rw [lookupE, if_neg he] at h
      rw [replaceE, if_neg he, ih h]

theorem lookupE_replaceE (es : List (List Nat × Node)) (c : List Nat) (v w : Node)
    (h : lookupE es c = some w) : lookupE (replaceE es c v) c = some v := by
  induction es with
  | nil => simp [lookupE] at h
  | cons e tl ih =>
    by_cases he : e.1 = c
    · rw [replaceE, if_pos he, lookupE, if_pos rfl]
    · rw [lookupE, if_neg he] at h
      rw [replaceE, if_neg he, lookupE, if_neg he]
      exact ih h

theorem lookupE_insertE (es : List (List Nat × Node)) (c : List Nat) (v : Node)
    (h : lookupE es c = none) : lookupE (insertE es c v) c = some v := by
  induction es with
  | nil => simp [insertE, lookupE]
  | cons e tl ih =>
    by_cases he : e.1 = c
    · rw [lookupE, if_pos he] at h; exact absurd h (by simp)
    · rw [lookupE, if_neg he] at h
      rw [insertE, List.cons_append, lookupE, if_neg he]
      exact ih h

theorem lookupE_eraseE (es : List (List Nat × Node)) (c : List Nat) :
    lookupE (eraseE es c) c = none := by
  induction es with
  | nil => rfl
  | cons e tl ih =>
    by_cases he : e.1 = c
    · unfold eraseE
      rw [List.filter_cons]
      simp only [he]
      simpa [eraseE] using ih
    · unfold eraseE
      rw [List.filter_cons]
      simp only [decide_not, he]
      simpa [eraseE, lookupE, he] using ih

/-! ## Walk lemmas -/

theorem openExcl_of_found (cs : List (List Nat)) : ∀ (t : Node) (n : Node),
    resolveNode t cs = .found n → openExcl t cs = (EEXIST, t) := by
  induction cs with
  | nil => intro t n _; cases t <;> rfl
  | cons c rest ih =>
    intro t n h
    cases t with
    | file d => simp [resolveNode] at h
    | dir es =>
      by_cases hc : c = [dotB]
      · rw [resolveNode, if_pos hc] at h
        rw [openExcl, if_pos hc, ih _ _ h]
      · rw [resolveNode, if_neg hc] at h
        rw [openExcl, if_neg hc]
        cases hl : lookupE es c with
        | none => rw [hl] at h; simp at h
        | some t2 =>
          rw [hl] at h
          simp only
          by_cases hr : rest = []
          · rw [if_pos hr]
          · rw [if_neg hr, ih _ _ h, replaceE_self es c t2 hl]

theorem mkdirOp_of_found (cs : List (List Nat)) : ∀ (t : Node) (n : Node),
    resolveNode t cs = .found n → mkdirOp t cs = (EEXIST, t) := by
  induction cs with
  | nil => intro t n _; cases t <;> rfl
  | cons c rest ih =>
    intro t n h
    cases t with
    | file d => simp [resolveNode] at h
    | dir es =>
      by_cases hc : c = [dotB]
      · rw [resolveNode, if_pos hc] at h
        rw [mkdirOp, if_pos hc, ih _ _ h]
      · rw [resolveNode, if_neg hc] at h
        rw [mkdirOp, if_neg hc]
        cases hl : lookupE es c with
        | none => rw [hl] at h; simp at h
        | some t2 =>
          rw [hl] at h
          simp only
          by_cases hr : rest = []
          · rw [if_pos hr]
          · rw [if_neg hr, ih _ _ h, replaceE_self es c t2 hl]

theorem unlinkOp_of_enoent (cs : List (List Nat)) : ∀ t : Node,
    resolveNode t cs = .enoent → unlinkOp t cs = (ENOENT, t) := by
  induction cs with
  | nil => intro t h; simp [resolveNode] at h
  | cons c rest ih =>
    intro t h
    cases t with
    | file d => simp [resolveNode] at h
    | dir es =>
      by_cases hc : c = [dotB]
      · rw [resolveNode, if_pos hc] at h
        rw [unlinkOp, if_pos hc, ih _ h]
      · rw [resolveNode, if_neg hc] at h
        rw [unlinkOp, if_neg hc]
        cases hl : lookupE es c with
        | none => rfl
        | some t2 =>
          rw [hl] at h
          have hr : ¬ rest = [] := by
            intro h0
            subst h0
            simp [resolveNode] at h
          simp only
          rw [if_neg hr, ih _ h, replaceE_self es c t2 hl]

theorem rmdirOp_of_enoent (cs : List (List Nat)) : ∀ t : Node,
    resolveNode t cs = .enoent → rmdirOp t cs = (ENOENT, t) := by
  induction cs with
  | nil => intro t h; simp [resolveNode] at h
  | cons c rest ih =>
    intro t h
    cases t with
    | file d => simp [resolveNode] at h
    | dir es =>
      by_cases hc : c = [dotB]
      · rw [resolveNode, if_pos hc] at h
        have hr : ¬ rest = [] := by
          intro h0
          subst h0
          simp [resolveNode] at h
        rw [rmdirOp, if_pos hc, if_neg hr, ih _ h]
      · rw [resolveNode, if_neg hc] at h
        rw [rmdirOp, if_neg hc]
        cases hl : lookupE es c with
        | none => rfl
        | some t2 =>
          rw [hl] at h
          have hr : ¬ rest = [] := by
            intro h0
            subst h0
            simp [resolveNode] at h
          simp only
          rw [if_neg hr, ih _ h, replaceE_self es c t2 hl]

theorem openExcl_parent_enoent (cs : List (List Nat)) : ∀ t : Node,
    resolveNode t cs.dropLast = .enoent → openExcl t cs = (ENOENT, t) := by
  induction cs with
  | nil => intro t h; simp [resolveNode] at h
  | cons c rest ih =>
    intro t h
    by_cases hr : rest = []
    · subst hr
      simp [resolveNode] at h
    · rw [List.dropLast_cons_of_ne_nil hr] at h
      cases t with
      | file d =>
        simp [resolveNode] at h
      | dir es =>
        by_cases hc : c = [dotB]
        · rw [resolveNode, if_pos hc] at h
          rw [openExcl, if_pos hc, ih _ h]
        · rw [resolveNode, if_neg hc] at h
          rw [openExcl, if_neg hc]
          cases hl : lookupE es c with
          | none =>
            simp only
            rw [if_neg hr]
          | some t2 =>
            rw [hl] at h
            simp only
            rw [if_neg hr, ih _ h, replaceE_self es c t2 hl]

theorem openExcl_dir (cs : List (List Nat)) : ∀ es, ∃ es2,
    (openExcl (.dir es) cs).2 = Node.dir es2 := by
  induction cs with
  | nil => intro es; exact ⟨es, rfl⟩
  | cons c rest ih =>
    intro es
    rw [openExcl]
    by_cases hc : c = [dotB]
    · rw [if_pos hc]; exact ih es
    · rw [if_neg hc]
      cases hl : lookupE es c with
      | some t2 =>
        simp only
        by_cases hr : rest = []
        · rw [if_pos hr]; exact ⟨es, rfl⟩
        · rw [if_neg hr]; exact ⟨replaceE es c (openExcl t2 rest).2, rfl⟩
      | none =>
        simp only
        by_cases hr : rest = []
        · rw [if_pos hr]; exact ⟨insertE es c (.file []), rfl⟩
        · rw [if_neg hr]; exact ⟨es, rfl⟩

theorem mkdirOp_dir (cs : List (List Nat)) : ∀ es, ∃ es2,
    (mkdirOp (.dir es) cs).2 = Node.dir es2 := by
  induction cs with
  | nil => intro es; exact ⟨es, rfl⟩
  | cons c rest ih =>
    intro es
    rw [mkdirOp]
    by_cases hc : c = [dotB]
    · rw [if_pos hc]; exact ih es
    · rw [if_neg hc]
      cases hl : lookupE es c with
      | some t2 =>
        simp only
        by_cases hr : rest = []
        · rw [if_pos hr]; exact ⟨es, rfl⟩
        · rw [if_neg hr]; exact ⟨replaceE es c (mkdirOp t2 rest).2, rfl⟩
      | none =>
        simp only
        by_cases hr : rest = []
        · rw [if_pos hr]; exact ⟨insertE es c (.dir []), rfl⟩
        · rw [if_neg hr]; exact ⟨es, rfl⟩

theorem unlinkOp_dir (cs : List (List Nat)) : ∀ es, ∃ es2,
    (unlinkOp (.dir es) cs).2 = Node.dir es2 := by
  induction cs with
  | nil => intro es; exact ⟨es, rfl⟩
  | cons c rest ih =>
    intro es
    rw [unlinkOp]
    by_cases hc : c = [dotB]
    · rw [if_pos hc]; exact ih es
    · rw [if_neg hc]
      cases hl : lookupE es c with
      | some t2 =>
        simp only
        by_cases hr : rest = []
        · rw [if_pos hr]
          cases t2 with
          | dir es3 => exact ⟨es, rfl⟩
          | file d => exact ⟨eraseE es c, rfl⟩
        · rw [if_neg hr]; exact ⟨replaceE es c (unlinkOp t2 rest).2, rfl⟩
      | none => exact ⟨es, rfl⟩

theorem rmdirOp_dir (cs : List (List Nat)) : ∀ es, ∃ es2,
    (rmdirOp (.dir es) cs).2 = Node.dir es2 := by
  induction cs with
  | nil => intro es; exact ⟨es, rfl⟩
  | cons c rest ih =>
    intro es
    rw [rmdirOp]
    by_cases hc : c = [dotB]
    · rw [if_pos hc]
      by_cases hr : rest = []
      · rw [if_pos hr]; exact ⟨es, rfl⟩
      · rw [if_neg hr]; exact ih es
    · rw [if_neg hc]
      cases hl : lookupE es c with
      | some t2 =>
        simp only
        by_cases hr : rest = []
        · rw [if_pos hr]
          cases t2 with
          | file d => exact ⟨es, rfl⟩
          | dir es3 =>
            cases es3 with
            | nil => exact ⟨eraseE es c, rfl⟩
            | cons e3 tl3 => exact ⟨es, rfl⟩
        · rw [if_neg hr]; exact ⟨replaceE es c (rmdirOp t2 rest).2, rfl⟩
      | none => exact ⟨es, rfl⟩

theorem openExcl_idem (cs : List (List Nat)) : ∀ t : Node,
    (openExcl (openExcl t cs).2 cs).2 = (openExcl t cs).2 := by
  induction cs with
  | nil => intro t; cases t <;> rfl
  | cons c rest ih =>
    intro t
    cases t with
    | file d => rfl
    | dir es =>
      by_cases hc : c = [dotB]
      · have h1 : openExcl (Node.dir es) (c :: rest) = openExcl (Node.dir es) rest := by
          rw [openExcl, if_pos hc]
        rw [h1]
        obtain ⟨es2, hshape⟩ := openExcl_dir rest es
        rw [hshape]
        have h2 : openExcl (Node.dir es2) (c :: rest) = openExcl (Node.dir es2) rest := by
          rw [openExcl, if_pos hc]
        rw [h2]
        have h3 := ih (Node.dir es)
        rw [hshape] at h3
        exact h3
      · cases hl : lookupE es c with
        | some t2 =>
          by_cases hr : rest = []
          · have h1 : openExcl (Node.dir es) (c :: rest) = (EEXIST, Node.dir es) := by
              rw [openExcl, if_neg hc, hl]
              simp only
              rw [if_pos hr]
            rw [h1, h1]
          · have h1 : openExcl (Node.dir es) (c :: rest) =
                ((openExcl t2 rest).1, Node.dir (replaceE es c (openExcl t2 rest).2)) := by
              rw [openExcl, if_neg hc, hl]
              simp only
              rw [if_neg hr]
            have hl2 : lookupE (replaceE es c (openExcl t2 rest).2) c =
                some (openExcl t2 rest).2 := lookupE_replaceE es c _ t2 hl
            have h2 : openExcl (Node.dir (replaceE es c (openExcl t2 rest).2)) (c :: rest) =
                ((openExcl (openExcl t2 rest).2 rest).1,
                  Node.dir (replaceE (replaceE es c (openExcl t2 rest).2) c
                    (openExcl (openExcl t2 rest).2 rest).2)) := by
              rw [openExcl, if_neg hc, hl2]
              simp only
              rw [if_neg hr]
            rw [h1, h2]
            simp only
            rw [ih t2, replaceE_self _ c _ hl2]
        | none =>
          by_cases hr : rest = []
          · have h1 : openExcl (Node.dir es) (c :: rest) =
                (0, Node.dir (insertE es c (.file []))) := by
              rw [openExcl, if_neg hc, hl]
              simp only
              rw [if_pos hr]
            have h2 : openExcl (Node.dir (insertE es c (.file []))) (c :: rest) =
                (EEXIST, Node.dir (insertE es c (.file []))) := by
              rw [openExcl, if_neg hc, lookupE_insertE es c _ hl]
              simp only
              rw [if_pos hr]
            rw [h1, h2]
          · have h1 : openExcl (Node.dir es) (c :: rest) = (ENOENT, Node.dir es) := by
              rw [openExcl, if_neg hc, hl]
              simp only
              rw [if_neg hr]
            rw [h1, h1]

theorem mkdirOp_idem (cs : List (List Nat)) : ∀ t : Node,
    (mkdirOp (mkdirOp t cs).2 cs).2 = (mkdirOp t cs).2 := by
  induction cs with
  | nil => intro t; cases t <;> rfl
  | cons c rest ih =>
    intro t
    cases t with
    | file d => rfl
    | dir es =>
      by_cases hc : c = [dotB]
      · have h1 : mkdirOp (Node.dir es) (c :: rest) = mkdirOp (Node.dir es) rest := by
          rw [mkdirOp, if_pos hc]
        rw [h1]
        obtain ⟨es2, hshape⟩ := mkdirOp_dir rest es
        rw [hshape]
        have h2 : mkdirOp (Node.dir es2) (c :: rest) = mkdirOp (Node.dir es2) rest := by
          rw [mkdirOp, if_pos hc]
        rw [h2]
        have h3 := ih (Node.dir es)
        rw [hshape] at h3
        exact h3
      · cases hl : lookupE es c with
        | some t2 =>
          by_cases hr : rest = []
          · have h1 : mkdirOp (Node.dir es) (c :: rest) = (EEXIST, Node.dir es) := by
              rw [mkdirOp, if_neg hc, hl]
              simp only
              rw [if_pos hr]
            rw [h1, h1]
          · have h1 : mkdirOp (Node.dir es) (c :: rest) =
                ((mkdirOp t2 rest).1, Node.dir (replaceE es c (mkdirOp t2 rest).2)) := by
              rw [mkdirOp, if_neg hc, hl]
              simp only
              rw [if_neg hr]
            have hl2 : lookupE (replaceE es c (mkdirOp t2 rest).2) c =
                some (mkdirOp t2 rest).2 := lookupE_replaceE es c _ t2 hl
            have h2 : mkdirOp (Node.dir (replaceE es c (mkdirOp t2 rest).2)) (c :: rest) =
                ((mkdirOp (mkdirOp t2 rest).2 rest).1,
                  Node.dir (replaceE (replaceE es c (mkdirOp t2 rest).2) c
                    (mkdirOp (mkdirOp t2 rest).2 rest).2)) := by
              rw [mkdirOp, if_neg hc, hl2]
              simp only
              rw [if_neg hr]
            rw [h1, h2]
            simp only
            rw [ih t2, replaceE_self _ c _ hl2]
        | none =>
          by_cases hr : rest = []
          · have h1 : mkdirOp (Node.dir es) (c :: rest) =
                (0, Node.dir (insertE es c (.dir []))) := by
              rw [mkdirOp, if_neg hc, hl]
              simp only
              rw [if_pos hr]
            have h2 : mkdirOp (Node.dir (insertE es c (.dir []))) (c :: rest) =
                (EEXIST, Node.dir (insertE es c (.dir []))) := by
              rw [mkdirOp, if_neg hc, lookupE_insertE es c _ hl]
              simp only
              rw [if_pos hr]
            rw [h1, h2]
          · have h1 : mkdirOp (Node.dir es) (c :: rest) = (ENOENT, Node.dir es) := by
              rw [mkdirOp, if_neg hc, hl]
              simp only
              rw [if_neg hr]
            rw [h1, h1]

theorem unlinkOp_idem (cs : List (List Nat)) : ∀ t : Node,
    (unlinkOp (unlinkOp t cs).2 cs).2 = (unlinkOp t cs).2 := by
  induction cs with
  | nil => intro t; cases t <;> rfl
  | cons c rest ih =>
    intro t
    cases t with
    | file d => rfl
    | dir es =>
      by_cases hc : c = [dotB]
      · have h1 : unlinkOp (Node.dir es) (c :: rest) = unlinkOp (Node.dir es) rest := by
          rw [unlinkOp, if_pos hc]
        rw [h1]
        obtain ⟨es2, hshape⟩ := unlinkOp_dir rest es
        rw [hshape]
        have h2 : unlinkOp (Node.dir es2) (c :: rest) = unlinkOp (Node.dir es2) rest := by
          rw [unlinkOp, if_pos hc]
        rw [h2]
        have h3 := ih (Node.dir es)
        rw [hshape] at h3
        exact h3
      · cases hl : lookupE es c with
        | some t2 =>
          by_cases hr : rest = []
          · cases t2 with
            | dir es3 =>
              have h1 : unlinkOp (Node.dir es) (c :: rest) = (EISDIR, Node.dir es) := by
                rw [unlinkOp, if_neg hc, hl]
                simp only
                rw [if_pos hr]
              rw [h1, h1]
            | file d2 =>
              have h1 : unlinkOp (Node.dir es) (c :: rest) = (0, Node.dir (eraseE es c)) := by
                rw [unlinkOp, if_neg hc, hl]
                simp only
                rw [if_pos hr]
              have h2 : unlinkOp (Node.dir (eraseE es c)) (c :: rest) =
                  (ENOENT, Node.dir (eraseE es c)) := by
                rw [unlinkOp, if_neg hc, lookupE_eraseE es c]
              rw [h1, h2]
          · have h1 : unlinkOp (Node.dir es) (c :: rest) =
                ((unlinkOp t2 rest).1, Node.dir (replaceE es c (unlinkOp t2 rest).2)) := by
              rw [unlinkOp, if_neg hc, hl]
              simp only
              rw [if_neg hr]
            have hl2 : lookupE (replaceE es c (unlinkOp t2 rest).2) c =
                some (unlinkOp t2 rest).2 := lookupE_replaceE es c _ t2 hl
            have h2 : unlinkOp (Node.dir (replaceE es c (unlinkOp t2 rest).2)) (c :: rest) =
                ((unlinkOp (unlinkOp t2 rest).2 rest).1,
                  Node.dir (replaceE (replaceE es c (unlinkOp t2 rest).2) c
                    (unlinkOp (unlinkOp t2 rest).2 rest).2)) := by
              rw [unlinkOp, if_neg hc, hl2]
              simp only
              rw [if_neg hr]
            rw [h1, h2]
            simp only
            rw [ih t2, replaceE_self _ c _ hl2]
        | none =>
          have h1 : unlinkOp (Node.dir es) (c :: rest) = (ENOENT, Node.dir es) := by
            rw [unlinkOp, if_neg hc, hl]
          rw [h1, h1]

theorem rmdirOp_idem (cs : List (List Nat)) : ∀ t : Node,
    (rmdirOp (rmdirOp t cs).2 cs).2 = (rmdirOp t cs).2 := by
  induction cs with
  | nil => intro t; cases t <;> rfl
  | cons c rest ih =>
    intro t
    cases t with
    | file d => rfl
    | dir es =>
      by_cases hc : c = [dotB]
      · by_cases hr : rest = []
        · have h1 : rmdirOp (Node.dir es) (c :: rest) = (EINVAL, Node.dir es) := by
            rw [rmdirOp, if_pos hc, if_pos hr]
          rw [h1, h1]
        · have h1 : rmdirOp (Node.dir es) (c :: rest) = rmdirOp (Node.dir es) rest := by
            rw [rmdirOp, if_pos hc, if_neg hr]
          rw [h1]
          obtain ⟨es2, hshape⟩ := rmdirOp_dir rest es
          rw [hshape]
          have h2 : rmdirOp (Node.dir es2) (c :: rest) = rmdirOp (Node.dir es2) rest := by
            rw [rmdirOp, if_pos hc, if_neg hr]
          rw [h2]
          have h3 := ih (Node.dir es)
          rw [hshape] at h3
          exact h3
      · cases hl : lookupE es c with
        | some t2 =>
          by_cases hr : rest = []
          · cases t2 with
            | file d2 =>
              have h1 : rmdirOp (Node.dir es) (c :: rest) = (ENOTDIR, Node.dir es) := by
                rw [rmdirOp, if_neg hc, hl]
                simp only
                rw [if_pos hr]
              rw [h1, h1]
            | dir es3 =>
              cases es3 with
              | nil =>
                have h1 : rmdirOp (Node.dir es) (c :: rest) =
                    (0, Node.dir (eraseE es c)) := by
                  rw [rmdirOp, if_neg hc, hl]
                  simp only
                  rw [if_pos hr]
                have h2 : rmdirOp (Node.dir (eraseE es c)) (c :: rest) =
                    (ENOENT, Node.dir (eraseE es c)) := by
                  rw [rmdirOp, if_neg hc, lookupE_eraseE es c]
                rw [h1, h2]
              | cons e3 tl3 =>
                have h1 : rmdirOp (Node.dir es) (c :: rest) = (ENOTEMPTY, Node.dir es) := by
                  rw [rmdirOp, if_neg hc, hl]
                  simp only
                  rw [if_pos hr]
                rw [h1, h1]
          · have h1 : rmdirOp (Node.dir es) (c :: rest) =
                ((rmdirOp t2 rest).1, Node.dir (replaceE es c (rmdirOp t2 rest).2)) := by
              rw [rmdirOp, if_neg hc, hl]
              simp only
              rw [if_neg hr]
            have hl2 : lookupE (replaceE es c (rmdirOp t2 rest).2) c =
                some (rmdirOp t2 rest).2 := lookupE_replaceE es c _ t2 hl
            have h2 : rmdirOp (Node.dir (replaceE es c (rmdirOp t2 rest).2)) (c :: rest) =
                ((rmdirOp (rmdirOp t2 rest).2 rest).1,
                  Node.dir (replaceE (replaceE es c (rmdirOp t2 rest).2) c
                    (rmdirOp (rmdirOp t2 rest).2 rest).2)) := by
              rw [rmdirOp, if_neg hc, hl2]
              simp only
              rw [if_neg hr]
            rw [h1, h2]
            simp only
            rw [ih t2, replaceE_self _ c _ hl2]
        | none =>
          have h1 : rmdirOp (Node.dir es) (c :: rest) = (ENOENT, Node.dir es) := by
            rw [rmdirOp, if_neg hc, hl]
          rw [h1, h1]

/-! ## Claims C4, C6, C8 -/

/-- C4: create and delete store operations are idempotent: create_file on a
path already holding a file, create_directory on a path already holding a
directory, delete_file on a missing path and delete_directory on a missing
path all return success; and running any of the four twice leaves the same
subtree as running it once. -/
theorem C4_create_delete_idempotent (fs : Node) (p : List Nat) :
    (∀ d, validate_path p = true → resolveNode fs (osComps p) = .found (.file d) →
      (Storage.create_file fs p).res = none) ∧
    (∀ es, validate_path p = true → resolveNode fs (osComps p) = .found (.dir es) →
      (Storage.create_directory fs p).res = none) ∧
    (validate_path p = true → resolveNode fs (osComps p) = .enoent →
      (Storage.delete_file fs p).res = none) ∧
    (validate_path p = true → resolveNode fs (osComps p) = .enoent →
      (Storage.delete_directory fs p).res = none) ∧
    (Storage.create_file (Storage.create_file fs p).fs p).fs =
      (Storage.create_file fs p).fs ∧
    (Storage.create_directory (Storage.create_directory fs p).fs p).fs =
      (Storage.create_directory fs p).fs ∧
    (Storage.delete_file (Storage.delete_file fs p).fs p).fs =
      (Storage.delete_file fs p).fs ∧
    (Storage.delete_directory (Storage.delete_directory fs p).fs p).fs =
      (Storage.delete_directory fs p).fs := by
  refine ⟨?_, ?_, ?_, ?_, ?_, ?_, ?_, ?_⟩
  · intro d hv hres
    simp [Storage.create_file, hv, openExcl_of_found (osComps p) fs _ hres, EEXIST]
  · intro es hv hres
    simp [Storage.create_directory, hv, mkdirOp_of_found (osComps p) fs _ hres, EEXIST]
  · intro hv hres
    simp [Storage.delete_file, hv, unlinkOp_of_enoent (osComps p) fs hres, ENOENT]
  · intro hv hres
    simp [Storage.delete_directory, hv, rmdirOp_of_enoent (osComps p) fs hres, ENOENT]
  · by_cases hv : validate_path p = true
    · simp only [Storage.create_file, if_pos hv]
      exact openExcl_idem (osComps p) fs
    · simp [Storage.create_file, hv]
  · by_cases hv : validate_path p = true
    · simp only [Storage.create_directory, if_pos hv]
      exact mkdirOp_idem (osComps p) fs
    · simp [Storage.create_directory, hv]
  · by_cases hv : validate_path p = true
    · simp only [Storage.delete_file, if_pos hv]
      exact unlinkOp_idem (osComps p) fs
    · simp [Storage.delete_file, hv]
  · by_cases hv : validate_path p = true
    · simp only [Storage.delete_directory, if_pos hv]
      exact rmdirOp_idem (osComps p) fs
    · simp [Storage.delete_directory, hv]

/-- Witness for C4 on a concrete tree holding the file "a" and the
directory "b", with "c" missing. -/
theorem C4_witness :
    (Storage.create_file (.dir [([97], .file []), ([98], .dir [])]) [97]).res = none ∧
    (Storage.create_directory (.dir [([97], .file []), ([98], .dir [])]) [98]).res = none ∧
    (Storage.delete_file (.dir [([97], .file []), ([98], .dir [])]) [99]).res = none ∧
    (Storage.delete_directory (.dir [([97], .file []), ([98], .dir [])]) [99]).res = none :=
  ⟨(C4_create_delete_idempotent (.dir [([97], .file []), ([98], .dir [])]) [97]).1
      [] (by decide) rfl,
   (C4_create_delete_idempotent (.dir [([97], .file []), ([98], .dir [])]) [98]).2.1
      [] (by decide) rfl,
   (C4_create_delete_idempotent (.dir [([97], .file []), ([98], .dir [])]) [99]).2.2.1
      (by decide) rfl,
   (C4_create_delete_idempotent (.dir [([97], .file []), ([98], .dir [])]) [99]).2.2.2.1
      (by decide) rfl⟩

/-- C6 counterexample: with a directory "d" in the tree, create_file("d")
reports success (open O_EXCL fails EEXIST, which create_file treats as
idempotent success), not an IoError failure as the claim states. -/
theorem C6_counterexample :
    (Storage.create_file (.dir [([100], .dir [])]) [100]).res = none ∧
    ¬ (Storage.create_file (.dir [([100], .dir [])]) [100]).res =
      some ErrorCode.IoError := by
  decide

/-- C6 amended: create_file on a valid path that exists as a directory
returns success (the EEXIST branch), and create_file on a valid path whose
parent is missing returns FileNotFound (errno ENOENT through
Error::from_errno), not IoError; the engine variant do_create_file
likewise returns 0 and ENOENT (NOT_FOUND through errno_to_status). -/
theorem C6_create_file_edge_cases (fs : Node) (p : List Nat) :
    (∀ es, validate_path p = true → resolveNode fs (osComps p) = .found (.dir es) →
      (Storage.create_file fs p).res = none) ∧
    (validate_path p = true → resolveNode fs ((osComps p).dropLast) = .enoent →
      (Storage.create_file fs p).res = some .FileNotFound) ∧
    (∀ es, resolveNode fs (engineComps p) = .found (.dir es) →
      do_create_file fs p = (0, fs)) ∧
    (resolveNode fs ((engineComps p).dropLast) = .enoent →
      do_create_file fs p = (ENOENT, fs) ∧ errno_to_status ENOENT = .NOT_FOUND) := by
  refine ⟨?_, ?_, ?_, ?_⟩
  · intro es hv hres
    simp [Storage.create_file, hv, openExcl_of_found (osComps p) fs _ hres, EEXIST]
  · intro hv hpm
    simp [Storage.create_file, hv, openExcl_parent_enoent (osComps p) fs hpm,
      ENOENT, EEXIST, Error.from_errno]
  · intro es hres
    simp [do_create_file, openExcl_of_found (engineComps p) fs _ hres]
  · intro hpm
    refine ⟨?_, rfl⟩
    simp [do_create_file, openExcl_parent_enoent (engineComps p) fs hpm, ENOENT, EEXIST]

/-- Witness for C6 amended: "d" exists as a directory; "a/b" has a missing
parent in the empty tree. -/
theorem C6_witness :
    (Storage.create_file (.dir [([100], .dir [])]) [100]).res = none ∧
    (Storage.create_file (.dir []) [97, 47, 98]).res = some .FileNotFound ∧
    do_create_file (.dir [([100], .dir [])]) [100] = (0, .dir [([100], .dir [])]) ∧
    do_create_file (.dir []) [97, 47, 98] = (ENOENT, .dir []) :=
  ⟨(C6_create_file_edge_cases (.dir [([100], .dir [])]) [100]).1 [] (by decide) rfl,
   (C6_create_file_edge_cases (.dir []) [97, 47, 98]).2.1 (by decide) rfl,
   (C6_create_file_edge_cases (.dir [([100], .dir [])]) [100]).2.2.1 [] rfl,
   ((C6_create_file_edge_cases (.dir []) [97, 47, 98]).2.2.2 rfl).1⟩

/-- C8 counterexample: create_directory successfully creates "d" in the
empty tree while acquiring no per-path lock at all, contradicting the
claim that every mutating operation holds the write lock on its path. -/
theorem C8_counterexample :
    (Storage.create_directory (.dir []) [100]).res = none ∧
    (Storage.create_directory (.dir []) [100]).trace = [] := by
  decide

/-- C8 amended: create_file, write_file, append_file and delete_file hold
the per-path write lock on their path, rename holds the write locks on
both paths (old acquired first, released last), and read_file holds the
per-path read lock; create_directory, delete_directory and list_directory
acquire no per-path lock. -/
theorem C8_lock_discipline (fs : Node) (p q bytes : List Nat)
    (hp : validate_path p = true) (hq : validate_path q = true) :
    (Storage.create_file fs p).trace = [.wlock p, .wunlock p] ∧
    (Storage.write_file fs p bytes).trace = [.wlock p, .wunlock p] ∧
    (Storage.append_file fs p bytes).trace = [.wlock p, .wunlock p] ∧
    (Storage.delete_file fs p).trace = [.wlock p, .wunlock p] ∧
    (Storage.rename fs p q).trace = [.wlock p, .wlock q, .wunlock q, .wunlock p] ∧
    (Storage.read_file fs p).trace = [.rlock p, .runlock p] ∧
    (Storage.create_directory fs p).trace = [] ∧
    (Storage.delete_directory fs p).trace = [] ∧
    (Storage.list_directory fs p).trace = [] := by
  refine ⟨?_, ?_, ?_, ?_, ?_, ?_, ?_, ?_, ?_⟩
  · simp [Storage.create_file, hp]
  · simp [Storage.write_file, hp]
  · simp [Storage.append_file, hp]
  · simp [Storage.delete_file, hp]
  · simp [Storage.rename, hp, hq]
  · simp only [Storage.read_file, if_pos hp]
    split <;> rfl
  · simp [Storage.create_directory, hp]
  · simp [Storage.delete_directory, hp]
  · simp [Storage.list_directory, hp]

/-- Witness for C8 amended at concrete valid paths. -/
theorem C8_witness :
    (Storage.create_file (.dir []) [97]).trace = [.wlock [97], .wunlock [97]] ∧
    (Storage.read_file (.dir []) [97]).trace = [.rlock [97], .runlock [97]] ∧
    (Storage.list_directory (.dir []) [97]).trace = [] :=
  ⟨(C8_lock_discipline (.dir []) [97] [98] [] (by decide) (by decide)).1,
   (C8_lock_discipline (.dir []) [97] [98] [] (by decide) (by decide)).2.2.2.2.2.1,
   (C8_lock_discipline (.dir []) [97] [98] [] (by decide) (by decide)).2.2.2.2.2.2.2.2⟩

/-! ## Claims C5, C7, C9, C10 -/

/-- C5 counterexample: Error::from_errno sends EINVAL to IoError, not to
InvalidPath as the claim states (its switch has no EINVAL case, and the
ErrorCode enum has no DirectoryNotEmpty member for ENOTEMPTY either). -/
theorem C5_counterexample :
    Error.from_errno EINVAL = ErrorCode.IoError ∧
    ¬ ErrorCode.IoError = ErrorCode.InvalidPath := by
  decide

/-- C5 amended: the service-level errno_to_status maps exactly as the claim
states (ENOENT, EEXIST, ENOTDIR, ENOTEMPTY, EINVAL to their statuses and
everything else to IO_ERROR), while Error::from_errno maps only ENOENT,
EEXIST and ENOTDIR, sending every other errno, including ENOTEMPTY and
EINVAL, to IoError. -/
theorem C5_errno_mapping :
    errno_to_status 0 = .OK ∧
    errno_to_status ENOENT = .NOT_FOUND ∧
    errno_to_status EEXIST = .ALREADY_EXISTS ∧
    errno_to_status ENOTDIR = .NOT_DIRECTORY ∧
    errno_to_status ENOTEMPTY = .DIRECTORY_NOT_EMPTY ∧
    errno_to_status EINVAL = .INVALID_PATH ∧
    (∀ e, ¬ e = 0 → ¬ e = ENOENT → ¬ e = EEXIST → ¬ e = ENOTDIR → ¬ e = ENOTEMPTY →
      ¬ e = EINVAL → errno_to_status e = .IO_ERROR) ∧
    Error.from_errno ENOENT = .FileNotFound ∧
    Error.from_errno EEXIST = .AlreadyExists ∧
    Error.from_errno ENOTDIR = .NotDirectory ∧
    Error.from_errno ENOTEMPTY = .IoError ∧
    Error.from_errno EINVAL = .IoError ∧
    (∀ e, ¬ e = 0 → ¬ e = ENOENT → ¬ e = EEXIST → ¬ e = ENOTDIR →
      Error.from_errno e = .IoError) := by
  refine ⟨by decide, by decide, by decide, by decide, by decide, by decide, ?_,
    by decide, by decide, by decide, by decide, by decide, ?_⟩
  · intro e h0 h2 h17 h20 h39 h22
    simp [errno_to_status, h0, h2, h17, h20, h39, h22]
  · intro e h0 h2 h17 h20
    simp [Error.from_errno, h0, h2, h17, h20]

/-- Witness for C5 amended at errno 5 (EIO). -/
theorem C5_witness : errno_to_status 5 = .IO_ERROR ∧ Error.from_errno 5 = .IoError :=
  ⟨C5_errno_mapping.2.2.2.2.2.2.1 5 (by decide) (by decide) (by decide) (by decide)
      (by decide) (by decide),
   C5_errno_mapping.2.2.2.2.2.2.2.2.2.2.2.2 5 (by decide) (by decide) (by decide)
      (by decide)⟩

/-- C7: a write command submitted while the cached leader flag is false is
rejected: with no known leader id the rejection is NO_LEADER, otherwise it
is NOT_LEADER with a message carrying the leader id; in neither case is
anything proposed to Raft.  The same gate holds in
StateMachine::apply_write_command. -/
theorem C7_not_leader_rejection (leader : List Nat) (op : FSOperation) :
    (leader = [] → submit_operation false leader op =
      .reject .NO_LEADER noLeaderElectedMsg) ∧
    (¬ leader = [] → submit_operation false leader op =
      .reject .NOT_LEADER (notLeaderMsgPrefix ++ leader)) ∧
    (∀ bytes, ¬ submit_operation false leader op = .propose bytes) ∧
    (leader = [] → apply_write_command_gate false leader =
      .rejected ⟨false, noLeaderAvailableMsg, [], []⟩) ∧
    (¬ leader = [] → apply_write_command_gate false leader =
      .rejected ⟨false, redirectPrefix ++ leader, [], []⟩) ∧
    ¬ apply_write_command_gate false leader = .proposed := by
  refine ⟨?_, ?_, ?_, ?_, ?_, ?_⟩
  · intro h; simp [submit_operation, h]
  · intro h; simp [submit_operation, h]
  · intro bytes hcontra
    by_cases h : leader = [] <;> simp [submit_operation, h] at hcontra
  · intro h; simp [apply_write_command_gate, h]
  · intro h; simp [apply_write_command_gate, h]
  · intro hcontra
    by_cases h : leader = [] <;> simp [apply_write_command_gate, h] at hcontra

/-- Witness for C7 with no known leader and with leader id "a". -/
theorem C7_witness :
    submit_operation false [] ⟨1, [97], []⟩ = .reject .NO_LEADER noLeaderElectedMsg ∧
    submit_operation false [97] ⟨1, [97], []⟩ =
      .reject .NOT_LEADER (notLeaderMsgPrefix ++ [97]) ∧
    ¬ submit_operation false [97] ⟨1, [97], []⟩ =
      .propose (FSOperation.serialize ⟨1, [97], []⟩) :=
  ⟨(C7_not_leader_rejection [] ⟨1, [97], []⟩).1 rfl,
   (C7_not_leader_rejection [97] ⟨1, [97], []⟩).2.1 (by decide),
   (C7_not_leader_rejection [97] ⟨1, [97], []⟩).2.2.1 _⟩

/-- C9 counterexample: a connection carrying two one-byte frames, with a
decoder that fails on every body, draws one failure response per frame:
after the first decode failure the handler keeps serving the connection
instead of closing it, contradicting the claim. -/
theorem C9_counterexample :
    handle_connection (fun _ => none) (fun _ => ⟨true, [], [], []⟩)
      (fun _ => ⟨true, [], [], []⟩) 2 [0, 0, 0, 1, 97, 0, 0, 0, 1, 98] =
      [procErrorResp, procErrorResp] := by
  decide

/-- C9 amended: when a received body fails to decode, the front door sends
exactly one failure response for that request and continues the request
loop on the same connection; it does not close it. -/
theorem C9_decode_failure_keeps_serving (decode : List Nat → Option RpcCommand)
    (execW execR : RpcCommand → Response) (fuel : Nat) (stream body rest : List Nat)
    (hr : receive_message stream = some (body, rest)) (hd : decode body = none) :
    handle_connection decode execW execR (fuel + 1) stream =
      procErrorResp :: handle_connection decode execW execR fuel rest := by
  simp only [handle_connection, hr, handle_one, hd]

/-- Witness for C9 amended on a concrete one-frame stream. -/
theorem C9_witness :
    receive_message [0, 0, 0, 1, 97] = some ([97], []) ∧
    handle_connection (fun _ => none) (fun _ => ⟨true, [], [], []⟩)
      (fun _ => ⟨true, [], [], []⟩) 1 [0, 0, 0, 1, 97] =
      procErrorResp :: handle_connection (fun _ => none) (fun _ => ⟨true, [], [], []⟩)
        (fun _ => ⟨true, [], [], []⟩) 0 [] :=
  ⟨rfl, C9_decode_failure_keeps_serving _ _ _ 0 _ _ _ rfl rfl⟩

/-- C10: a frame whose 32-bit network-order length prefix is zero (or
larger than 100 MiB) makes receive_message fail, and the connection
handler then stops serving the connection without sending any response,
whatever the decoder and the state machine, so an empty body never
reaches command decoding. -/
theorem C10_zero_length_frame (b0 b1 b2 b3 : Nat) (rest : List Nat)
    (h : ntohl b0 b1 b2 b3 = 0 ∨ ntohl b0 b1 b2 b3 > MAX_MESSAGE) :
    receive_message (b0 :: b1 :: b2 :: b3 :: rest) = none ∧
    ∀ decode execW execR fuel,
      handle_connection decode execW execR fuel (b0 :: b1 :: b2 :: b3 :: rest) = [] := by
  have h1 : receive_message (b0 :: b1 :: b2 :: b3 :: rest) = none := by
    simp only [receive_message]
    rw [if_pos h]
  refine ⟨h1, ?_⟩
  intro decode execW execR fuel
  cases fuel with
  | zero => rfl
  | succ n => simp only [handle_connection, h1]

/-- Witness for C10 at a zero length prefix followed by a stray byte. -/
theorem C10_witness :
    receive_message [0, 0, 0, 0, 97] = none ∧
    handle_connection (fun _ => none) (fun _ => ⟨true, [], [], []⟩)
      (fun _ => ⟨true, [], [], []⟩) 3 [0, 0, 0, 0, 97] = [] :=
  ⟨(C10_zero_length_frame 0 0 0 0 [97] (Or.inl rfl)).1,
   (C10_zero_length_frame 0 0 0 0 [97] (Or.inl rfl)).2 _ _ _ 3⟩

/-! ## Claims C2, C3 -/

theorem dec32_enc32 (n : Nat) (h : n < 4294967296) :
    dec32 (n % 256) (n / 256 % 256) (n / 65536 % 256) (n / 16777216 % 256) = n := by
  unfold dec32
  omega

theorem map_mod_256 (D : List Nat) (h : ∀ b ∈ D, b < 256) :
    D.map (fun x => x % 256) = D := by
  induction D with
  | nil => rfl
  | cons x xs ih =>
    simp only [List.map_cons]
    rw [Nat.mod_eq_of_lt (h x (by simp)), ih (fun b hb => h b (by simp [hb]))]

theorem serialize_eq (ty : Nat) (P D : List Nat) (hp : P.length < 4294967296)
    (hd : D.length < 4294967296) :
    FSOperation.serialize ⟨ty, P, D⟩ =
      ty :: P.length % 256 :: P.length / 256 % 256 :: P.length / 65536 % 256 ::
        P.length / 16777216 % 256 ::
        (P ++ D.length % 256 :: D.length / 256 % 256 :: D.length / 65536 % 256 ::
          D.length / 16777216 % 256 :: D) := by
  simp [FSOperation.serialize, enc32, Nat.mod_eq_of_lt hp, Nat.mod_eq_of_lt hd]

/-- C2: serializing any command with the log encoding and deserializing the
result yields the command back, all fields exact, empty payload included;
the side conditions state the uint8_t and uint32_t typing of the fields
(kind and payload bytes are byte values, lengths fit in u32). -/
theorem C2_log_roundtrip (op : FSOperation) (ht : op.type < 256)
    (hp : op.path.length < 4294967296) (hd : op.data.length < 4294967296)
    (hdb : ∀ b ∈ op.data, b < 256) :
    FSOperation.deserialize (FSOperation.serialize op) = some op := by
  obtain ⟨ty, P, D⟩ := op
  simp only at ht hp hd hdb
  rw [serialize_eq ty P D hp hd]
  simp only [FSOperation.deserialize]
  have hlen : (P ++ D.length % 256 :: D.length / 256 % 256 :: D.length / 65536 % 256 ::
      D.length / 16777216 % 256 :: D).length = P.length + 4 + D.length := by
    simp [List.length_append]
    omega
  rw [hlen, dec32_enc32 P.length hp]
  rw [if_neg (by omega : ¬ (5 + (P.length + 4 + D.length) < 9))]
  rw [if_neg (by omega : ¬ (5 + P.length > 5 + (P.length + 4 + D.length)))]
  rw [if_neg (by omega : ¬ (5 + P.length + 4 > 5 + (P.length + 4 + D.length)))]
  rw [List.drop_left, List.take_left]
  simp only [List.getD_cons_zero, List.getD_cons_succ, List.drop_succ_cons,
    List.drop_zero]
  rw [dec32_enc32 D.length hd]
  rw [if_neg (not_not_intro
    (by omega : 5 + P.length + 4 + D.length = 5 + (P.length + 4 + D.length)))]
  simp [Nat.mod_eq_of_lt ht, map_mod_256 D hdb]

/-- Witness for C2 at a concrete command. -/
theorem C2_witness :
    FSOperation.deserialize (FSOperation.serialize ⟨1, [97], [7]⟩) = some ⟨1, [97], [7]⟩ :=
  C2_log_roundtrip ⟨1, [97], [7]⟩ (by decide) (by decide) (by decide) (by decide)

/-- C3 counterexample: the kind byte 8 is not a defined command kind
(CREATE_FILE = 1 through RENAME = 7), yet the nine-byte entry with kind 8
and empty path and payload decodes successfully, contradicting the claim
that an unknown kind byte makes decoding fail. -/
theorem C3_counterexample :
    FSOperation.deserialize [8, 0, 0, 0, 0, 0, 0, 0, 0] = some ⟨8, [], []⟩ ∧
    ¬ (8 : Nat) = 1 ∧ ¬ (8 : Nat) = 2 ∧ ¬ (8 : Nat) = 3 ∧ ¬ (8 : Nat) = 4 ∧
    ¬ (8 : Nat) = 5 ∧ ¬ (8 : Nat) = 6 ∧ ¬ (8 : Nat) = 7 := by
  decide

/-- C3 amended: deserialization is strict about lengths: trailing bytes
after the payload, or a buffer shorter than the declared lengths require,
make decoding fail, and a successful decode consumes the buffer exactly;
the kind byte however is not checked, so entries with an undefined kind
decode and are rejected only at apply_operation with EINVAL, untouched
store; a decode failure is reported by the apply path as RAFT_ERROR (the
status taxonomy has no separate serialization error), again without
executing anything against the store. -/
theorem C3_strict_decoding :
    (∀ (op : FSOperation) (extra : List Nat), op.path.length < 4294967296 →
      op.data.length < 4294967296 → ¬ extra = [] →
      FSOperation.deserialize (FSOperation.serialize op ++ extra) = none) ∧
    (∀ bytes : List Nat, bytes.length < 9 → FSOperation.deserialize bytes = none) ∧
    (∀ (bytes : List Nat) (op : FSOperation), FSOperation.deserialize bytes = some op →
      bytes.length = 9 + op.path.length + op.data.length) ∧
    (∀ (fs : Node) (bytes : List Nat), FSOperation.deserialize bytes = none →
      on_apply_entry fs bytes = (fs, .RAFT_ERROR)) ∧
    (∀ (fs : Node) (op : FSOperation), ¬ op.type = 1 → ¬ op.type = 2 → ¬ op.type = 3 →
      ¬ op.type = 4 → ¬ op.type = 5 → ¬ op.type = 6 → ¬ op.type = 7 →
      apply_operation fs op = (EINVAL, fs)) := by
  refine ⟨?_, ?_, ?_, ?_, ?_⟩
  · intro op extra hp hd hne
    obtain ⟨ty, P, D⟩ := op
    simp only at hp hd
    have hex : 0 < extra.length := List.length_pos.mpr hne
    rw [serialize_eq ty P D hp hd]
    simp only [List.cons_append, List.append_assoc]
    simp only [FSOperation.deserialize]
    have hlen : (P ++ (D.length % 256 :: D.length / 256 % 256 :: D.length / 65536 % 256 ::
        D.length / 16777216 % 256 :: (D ++ extra))).length =
        P.length + 4 + D.length + extra.length := by
      simp [List.length_append]
      omega
    rw [hlen, dec32_enc32 P.length hp]
    rw [if_neg (by omega : ¬ (5 + (P.length + 4 + D.length + extra.length) < 9))]
    rw [if_neg (by omega :
      ¬ (5 + P.length > 5 + (P.length + 4 + D.length + extra.length)))]
    rw [if_neg (by omega :
      ¬ (5 + P.length + 4 > 5 + (P.length + 4 + D.length + extra.length)))]
    rw [List.drop_left]
    simp only [List.getD_cons_zero, List.getD_cons_succ]
    simp only [dec32_enc32 D.length hd]
    rw [if_pos (by omega :
      ¬ 5 + P.length + 4 + D.length = 5 + (P.length + 4 + D.length + extra.length))]
  · intro bytes hlen
    rcases bytes with _ | ⟨t, _ | ⟨a, _ | ⟨b, _ | ⟨c, _ | ⟨d, rest⟩⟩⟩⟩⟩
    · rfl
    · rfl
    · rfl
    · rfl
    · rfl
    · simp only [List.length_cons] at hlen
      simp only [FSOperation.deserialize]
      rw [if_pos (by omega : 5 + rest.length < 9)]
  · intro bytes op h
    rcases bytes with _ | ⟨t, _ | ⟨a, _ | ⟨b, _ | ⟨c, _ | ⟨d, rest⟩⟩⟩⟩⟩
    · simp [FSOperation.deserialize] at h
    · simp [FSOperation.deserialize] at h
    · simp [FSOperation.deserialize] at h
    · simp [FSOperation.deserialize] at h
    · simp [FSOperation.deserialize] at h
    · simp only [FSOperation.deserialize] at h
      split at h
      · exact absurd h (by simp)
      · split at h
        · exact absurd h (by simp)
        · split at h
          · exact absurd h (by simp)
          · split at h
            · exact absurd h (by simp)
            · next hg1 hg2 hg3 hg4 =>
              rw [not_not] at hg4
              injection h with hop
              subst hop
              simp only [List.length_cons, List.length_map, List.length_drop,
                List.length_take]
              omega
  · intro fs bytes h
    simp [on_apply_entry, h]
  · intro fs op h1 h2 h3 h4 h5 h6 h7
    simp [apply_operation, h1, h2, h3, h4, h5, h6, h7]

/-- Witness for C3 amended at concrete entries. -/
theorem C3_witness :
    FSOperation.deserialize (FSOperation.serialize ⟨1, [97], [7]⟩ ++ [0]) = none ∧
    FSOperation.deserialize [1, 0] = none ∧
    ([1, 0, 0, 0, 0, 0, 0, 0, 0] : List Nat).length =
      9 + ([] : List Nat).length + ([] : List Nat).length ∧
    on_apply_entry (.dir []) [] = (.dir [], .RAFT_ERROR) ∧
    apply_operation (.dir []) ⟨9, [], []⟩ = (EINVAL, .dir []) :=
  ⟨C3_strict_decoding.1 ⟨1, [97], [7]⟩ [0] (by decide) (by decide) (by decide),
   C3_strict_decoding.2.1 [1, 0] (by decide),
   C3_strict_decoding.2.2.1 [1, 0, 0, 0, 0, 0, 0, 0, 0] ⟨1, [], []⟩ rfl,
   C3_strict_decoding.2.2.2.1 (.dir []) [] rfl,
   C3_strict_decoding.2.2.2.2 (.dir []) ⟨9, [], []⟩ (by decide) (by decide) (by decide)
     (by decide) (by decide) (by decide) (by decide)⟩

end Diarkis
